import Mathlib

/-
Shallow embedding of the Green-Guardian spatial pipeline.

The Python sources embedded here:
  * onemap_client.py       - region polygon cache and point-to-region resolution
  * context_enricher.py    - green coverage ratios and density classification
  * aggregator.py          - per-region temperature aggregation
  * data_fusion.py         - outer join of temperature and context data
  * trigger_rules_enhanced.py - tiered rule evaluation with inference fallback

Modelling conventions:
  * Python floats are modelled as exact rationals (ℚ).
  * pandas NaN / pd.NA cells are modelled as `Option` values (`none` = absent);
    a NaN comparison such as `NaN < 0.1` is `False`, which `oLt` mirrors.
  * Python `list.sort` is guaranteed stable and is modelled as a stable sort
    (`List.insertionSort` with a total preorder).
  * pandas `DataFrame.sort_values(...)` is called with its default
    `kind='quicksort'`, which pandas does not document as stable: the program
    guarantees the sorted order of the key column but not the relative order
    of tied rows.  The embedding still has to pick one concrete function and
    uses `List.insertionSort` as a representative; theorems about
    `sort_values` outputs therefore only state consequences that hold for
    every correct sorting algorithm (sortedness, membership, multiplicity),
    never the representative's tie order.  (The one concrete evaluation of a
    `sort_values` output, the C5 counterexample, sorts two records, where
    numpy's small-array insertion-sort cutoff makes the real sort agree with
    the representative.)
  * pandas `groupby(key)` (default `sort=True`) emits one group per distinct
    key, keys in ascending order; rows inside a group keep their input order.
  * string comparison is code-point lexicographic, as in Python.
  * network fetching and shapely geometry are external collaborators (spec §1):
    a polygon is represented by its containment test, fetched data by function
    arguments.
-/

namespace GreenGuardian

/-! ## Rounding

pandas `Series.round(n)` rounds half to even (IEEE/numpy semantics).
`rnd` is round-half-to-even to an integer; `round1`/`round2` round a rational
to 1 or 2 decimal places. -/

/-- Round half to even: nearest integer, ties going to the even neighbour. -/
def rnd (q : ℚ) : ℤ :=
  if q - ⌊q⌋ < 1/2 then ⌊q⌋
  else if 1/2 < q - ⌊q⌋ then ⌊q⌋ + 1
  else if 2 ∣ ⌊q⌋ then ⌊q⌋ else ⌊q⌋ + 1

/-- Embeds `.round(1)`: one decimal place, half to even. -/
def round1 (q : ℚ) : ℚ := (rnd (q * 10) : ℚ) / 10

/-- Embeds `.round(2)`: two decimal places, half to even. -/
def round2 (q : ℚ) : ℚ := (rnd (q * 100) : ℚ) / 100

theorem floor_le_rnd (q : ℚ) : ⌊q⌋ ≤ rnd q := by
  unfold rnd
  split_ifs <;> omega

theorem rnd_le_floor_add_one (q : ℚ) : rnd q ≤ ⌊q⌋ + 1 := by
  unfold rnd
  split_ifs <;> omega

theorem rnd_nonneg {q : ℚ} (h : 0 ≤ q) : 0 ≤ rnd q := by
  have h0 : (0 : ℤ) ≤ ⌊q⌋ := by
    rw [Int.le_floor]; exact_mod_cast h
  exact le_trans h0 (floor_le_rnd q)

theorem rnd_le_of_le {q : ℚ} {n : ℤ} (h : q ≤ n) : rnd q ≤ n := by
  have hfl : ⌊q⌋ ≤ n := by
    rw [Int.floor_le_iff]
    exact lt_of_le_of_lt h (by exact_mod_cast lt_add_one (n : ℚ))
  rcases lt_or_eq_of_le hfl with hlt | heq
  · exact le_trans (rnd_le_floor_add_one q) (by omega)
  · -- q ≤ n and ⌊q⌋ = n force q = n exactly, so the first branch fires
    have hq : q = (n : ℚ) := by
      have h1 : (n : ℚ) ≤ q := by rw [← heq]; exact Int.floor_le q
      exact le_antisymm h h1
    unfold rnd
    rw [hq]
    simp

/-! ## String order

Python compares strings by code point, lexicographically.  `String.lt` does
the same but is not kernel-reducible, so we define the comparison on the
underlying character lists. -/

/-- Code-point lexicographic comparison of character lists. -/
def lexLe : List Char → List Char → Bool
  | [], _ => true
  | _ :: _, [] => false
  | a :: as, b :: bs =>
    if a.toNat < b.toNat then true
    else if b.toNat < a.toNat then false
    else lexLe as bs

/-- Python string `<=`: code-point lexicographic order. -/
def strLe (a b : String) : Prop := lexLe a.data b.data = true

instance : DecidableRel strLe := fun a b => by
  unfold strLe; infer_instance

theorem lexLe_total (as bs : List Char) : lexLe as bs = true ∨ lexLe bs as = true := by
  induction as generalizing bs with
  | nil => left; rfl
  | cons a as ih =>
    cases bs with
    | nil => right; rfl
    | cons b bs =>
      by_cases hab : a.toNat < b.toNat
      · left; simp [lexLe, hab]
      · by_cases hba : b.toNat < a.toNat
        · right; simp [lexLe, hba, hab]
        · rcases ih bs with h | h
          · left; simp [lexLe, hab, hba, h]
          · right; simp [lexLe, hab, hba, h]

theorem lexLe_trans {as bs cs : List Char} (h1 : lexLe as bs = true)
    (h2 : lexLe bs cs = true) : lexLe as cs = true := by
  induction as generalizing bs cs with
  | nil => rfl
  | cons a as ih =>
    cases bs with
    | nil => simp [lexLe] at h1
    | cons b bs =>
      cases cs with
      | nil => simp [lexLe] at h2
      | cons c cs =>
        simp only [lexLe] at h1 h2 ⊢
        by_cases hab : a.toNat < b.toNat
        · by_cases hbc : b.toNat < c.toNat
          · simp [show a.toNat < c.toNat by omega]
          · by_cases hcb : c.toNat < b.toNat
            · simp [hbc, hcb] at h2
            · simp [show a.toNat < c.toNat by omega]
        · by_cases hba : b.toNat < a.toNat
          · simp [hab, hba] at h1
          · by_cases hbc : b.toNat < c.toNat
            · simp [show a.toNat < c.toNat by omega]
            · by_cases hcb : c.toNat < b.toNat
              · simp [hbc, hcb] at h2
              · have hac : ¬ a.toNat < c.toNat := by omega
                have hca : ¬ c.toNat < a.toNat := by omega
                rw [if_neg hab, if_neg hba] at h1
                rw [if_neg hbc, if_neg hcb] at h2
                rw [if_neg hac, if_neg hca]
                exact ih h1 h2

instance : IsTotal String strLe := ⟨fun a b => lexLe_total a.data b.data⟩

instance : IsTrans String strLe := ⟨fun _ _ _ h1 h2 => lexLe_trans h1 h2⟩

/-! ## onemap_client.py : OneMapClient -/

/-- A cached planning-area polygon: its name plus its (shapely) containment
test.  `contains` takes an `(x, y) = (lon, lat)` pair, exactly as
`Point(lon, lat)` is built in `get_planning_area`.  The geometry itself is an
external collaborator, so a polygon is represented by its boundary test. -/
structure PlanningArea where
  name : String
  contains : ℚ × ℚ → Bool

/-- Embeds `OneMapClient.get_planning_area(lat, lon)`: scans the cached polygons in
load order and returns the name of the first one containing
`Point(lon, lat)`; `none` when no polygon contains the point.  (The lazy
`load_planning_areas()` call on an empty cache is a network fetch, excluded
from the core; `areas` is the cache after that fill.) -/
def getPlanningArea (areas : List PlanningArea) (lat lon : ℚ) : Option String :=
  (areas.find? (fun area => area.contains (lon, lat))).map (fun area => area.name)

/-- Embeds `OneMapClient.load_planning_areas()`: cache-fill step.  `cached` is the
current `self.planning_areas`, `fetched` the list parsed from the response
(malformed polygons already skipped per item).  A non-empty cache short-circuits:
`if self.planning_areas: return`. -/
def loadPlanningAreas (cached fetched : List PlanningArea) : List PlanningArea :=
  if cached.isEmpty then fetched else cached

/-! ## context_enricher.py : ContextEnricher -/

/-- Embeds `density_type` values: Commercial / Residential / Mixed /
Unknown-Low-Density (the spec's `Unknown`). -/
inductive Density where
  | commercial
  | residential
  | mixed
  | unknown
deriving DecidableEq

/-- Embeds `determine_density(row)` over `(comm_count, res_count)`:
total 0 gives Unknown; else ratio above 0.6 Commercial, below 0.4
Residential, otherwise Mixed. -/
def determineDensity (c r : ℕ) : Density :=
  if c + r = 0 then Density.unknown
  else if (0.6 : ℚ) < (c : ℚ) / ((c : ℚ) + (r : ℚ)) then Density.commercial
  else if (c : ℚ) / ((c : ℚ) + (r : ℚ)) < (0.4 : ℚ) then Density.residential
  else Density.mixed

/-- The `green_ratio` column of `get_context_features`:
`(df['green_count'] / max_green).round(2) if max_green > 0 else 0`.
`areas` is the `planning_area` column, `gc` the `green_counts` dict lookup
with `fillna(0)`. Returns `(planning_area, green_ratio)` rows. -/
def greenRatioRows (areas : List String) (gc : String → ℕ) : List (String × ℚ) :=
  let maxGreen := (areas.map gc).foldr max 0
  if 0 < maxGreen then
    areas.map (fun a => (a, round2 ((gc a : ℚ) / (maxGreen : ℚ))))
  else
    areas.map (fun a => (a, (0 : ℚ)))

/-! ## aggregator.py : TemperatureAggregator -/

/-- One parsed weather reading from the weather collaborator:
`{'lat', 'lng', 'value', 'name'}` (`name` is the station label). -/
structure WeatherPoint where
  lat : ℚ
  lng : ℚ
  value : ℚ
  name : String
deriving DecidableEq

/-- The `mapped_data` rows of `get_aggregated_data`: each point is resolved
through `get_planning_area`; unresolved points are dropped (logged only).
A row is `(planning_area, temperature, station_name)`. -/
def mappedRows (areas : List PlanningArea) (points : List WeatherPoint) :
    List (String × ℚ × String) :=
  points.filterMap (fun p =>
    (getPlanningArea areas p.lat p.lng).map (fun a => (a, p.value, p.name)))

/-- Output row of `df.groupby('planning_area').agg(...)` after rounding. -/
structure RegionStat where
  planning_area : String
  avg_temp : ℚ
  max_temp : ℚ
  station_count : ℕ
  stations : List String
deriving DecidableEq

/-- Embeds `groupby('planning_area')` keys: distinct keys in ascending order
(pandas `groupby` default `sort=True`). -/
def groupKeys (rows : List (String × ℚ × String)) : List String :=
  ((rows.map (fun r => r.1)).dedup).insertionSort strLe

/-- The `temperature` column of one group: the values of the rows with the
given key, in input order. -/
def regionVals (rows : List (String × ℚ × String)) (key : String) : List ℚ :=
  (rows.filter (fun r => r.1 = key)).map (fun r => r.2.1)

/-- The `station_name` column of one group, in input order. -/
def regionLabels (rows : List (String × ℚ × String)) (key : String) : List String :=
  (rows.filter (fun r => r.1 = key)).map (fun r => r.2.2)

/-- The aggregated record of one group: mean (rounded to 1 decimal),
unrounded max, count, and station labels in input order.  (`unbot' 0` is
never reached on a group: every group key has at least one row.) -/
def statFor (rows : List (String × ℚ × String)) (key : String) : RegionStat :=
  { planning_area := key
    avg_temp := round1 ((regionVals rows key).sum / ((regionVals rows key).length : ℚ))
    max_temp := ((regionVals rows key).maximum).unbot' 0
    station_count := (regionVals rows key).length
    stations := regionLabels rows key }

/-- Sort-key order of `result.sort_values(by='max_temp', ascending=False)`:
`a` may precede `b` exactly when `b.max_temp ≤ a.max_temp`.  Any correct
sort produces an output that is `Pairwise` in this relation; the default
`kind='quicksort'` guarantees nothing further about tied rows. -/
def maxGeStat (a b : RegionStat) : Prop := b.max_temp ≤ a.max_temp

instance : DecidableRel maxGeStat := fun a b => by
  unfold maxGeStat; infer_instance

instance : IsTotal RegionStat maxGeStat :=
  ⟨fun a b => le_total b.max_temp a.max_temp⟩

instance : IsTrans RegionStat maxGeStat :=
  ⟨fun _ _ _ hab hbc => le_trans hbc hab⟩

/-- The grouped-and-aggregated table (the `result` DataFrame before
`sort_values`): one record per group key, keys in ascending order. -/
def groupedStats (areas : List PlanningArea) (points : List WeatherPoint) :
    List RegionStat :=
  (groupKeys (mappedRows areas points)).map (statFor (mappedRows areas points))

/-- Embeds `TemperatureAggregator.get_aggregated_data()`, with the weather points and
the polygon cache as inputs (they are fetched by excluded collaborators).
Empty points or zero resolved points both give the empty result.
The final `sort_values(by='max_temp', ascending=False)` uses the default
`kind='quicksort'`, so the program fixes only the descending `max_temp`
order, not the relative order of tied records; `insertionSort` here is a
concrete representative of that underspecified sort, and no theorem below
relies on its tie order. -/
def getAggregatedData (areas : List PlanningArea) (points : List WeatherPoint) :
    List RegionStat :=
  (groupedStats areas points).insertionSort maxGeStat

/-! ## data_fusion.py : DataFusion -/

/-- A row of the context features table restricted to the columns used by
fusion: `planning_area`, `green_ratio` (field `green`), `density_type`. -/
structure ContextRow where
  planning_area : String
  green : ℚ
  density_type : Density
deriving DecidableEq

/-- A row of the unified dataset.  `avg_temperature` is `none` for regions
without temperature data (`pd.NA`); `green`/`density_type` are `none` for a
region that only existed on the temperature side of the outer merge (pandas
fills those cells with NaN). -/
structure FusedRecord where
  planning_area : String
  avg_temperature : Option ℚ
  green : Option ℚ
  density_type : Option Density
deriving DecidableEq

/-- Embeds `pd.merge(temp_df, context_df, on='planning_area', how='outer')` for
tables with unique keys: the left rows in order, each matched against the
context table, then the unmatched context rows in order. A left row with no
context match gets NaN (`none`) `green_ratio`/`density_type`. -/
def mergeOuter (stats : List (String × ℚ)) (ctx : List ContextRow) :
    List FusedRecord :=
  stats.map (fun s =>
    match ctx.find? (fun c => c.planning_area = s.1) with
    | some c => ⟨s.1, some s.2, some c.green, some c.density_type⟩
    | none => ⟨s.1, some s.2, none, none⟩) ++
  (ctx.filter (fun c => !(stats.any (fun s => s.1 == c.planning_area)))).map
    (fun c => ⟨c.planning_area, none, some c.green, some c.density_type⟩)

/-- The unified table before the final sort: when `temp_df` is empty the
context rows are used with `avg_temperature = pd.NA`, otherwise the outer
merge. -/
def joinOrder (stats : List (String × ℚ)) (ctx : List ContextRow) :
    List FusedRecord :=
  if stats.isEmpty then
    ctx.map (fun c => ⟨c.planning_area, none, some c.green, some c.density_type⟩)
  else mergeOuter stats ctx

/-- Sort-key order of `sort_values(by='avg_temperature', ascending=False,
na_position='last')`: `a` may precede `b` when `a`'s temperature is at
least `b`'s, with every absent value after every present one.  Any correct
sort with `na_position='last'` produces an output that is `Pairwise` in
this relation. -/
def fusedLe (a b : FusedRecord) : Prop :=
  match a.avg_temperature, b.avg_temperature with
  | some x, some y => y ≤ x
  | some _, none => True
  | none, some _ => False
  | none, none => True

instance : DecidableRel fusedLe := fun a b => by
  unfold fusedLe
  rcases a.avg_temperature with _ | x <;> rcases b.avg_temperature with _ | y <;>
    infer_instance

instance : IsTotal FusedRecord fusedLe := by
  constructor
  intro a b
  unfold fusedLe
  rcases a.avg_temperature with _ | x <;> rcases b.avg_temperature with _ | y <;>
    simp [le_total]

instance : IsTrans FusedRecord fusedLe := by
  constructor
  rintro ⟨_, ta, _, _⟩ ⟨_, tb, _, _⟩ ⟨_, tc, _, _⟩ hab hbc
  rcases ta with _ | x <;> rcases tb with _ | y <;> rcases tc with _ | z <;>
    simp_all [fusedLe]
  exact le_trans hbc hab

/-- Embeds `DataFusion.get_unified_dataset()`, with the two source tables as inputs
(`stats`: the aggregator output projected to `(planning_area,
avg_temperature)`; `ctx`: the context features projected to `(planning_area,
green_ratio, density_type)`).  An empty context table short-circuits to an
empty result; otherwise the join is sorted by temperature descending with
absent temperatures last.  The sort is `sort_values` with the default
`kind='quicksort'`, so the program fixes only the descending order with
absent values last, not the relative order of tied records; `insertionSort`
here is a concrete representative of that underspecified sort, and no
theorem below relies on its tie order. -/
def getUnifiedDataset (stats : List (String × ℚ)) (ctx : List ContextRow) :
    List FusedRecord :=
  if ctx.isEmpty then [] else (joinOrder stats ctx).insertionSort fusedLe

/-! ## trigger_rules_enhanced.py : EnhancedTriggerRules -/

/-- The `priority` strings: CRITICAL / HIGH / MEDIUM / LOW / NORMAL, plus the
designated not-found value (the code's string is the spec's `NOT_FOUND`). -/
inductive Priority where
  | critical
  | high
  | medium
  | low
  | normal
  | notFound
deriving DecidableEq

/-- The `priority_order` rank table of `evaluate_all` (the not-found string
is absent from the dict, so `.get(priority, 5)` gives it rank 5). -/
def priorityRank : Priority → ℕ
  | Priority.critical => 0
  | Priority.high => 1
  | Priority.medium => 2
  | Priority.low => 3
  | Priority.normal => 4
  | Priority.notFound => 5

/-- The `data_source` detail: `'temperature'` or `'context_inference'`. -/
inductive DataSource where
  | temperature
  | contextInference
deriving DecidableEq

/-- The result dict of `evaluate_area` (the formatted `reason` strings are
presentation and are not modelled; `data_source` is `none` on the not-found
path, whose `details` dict is empty). -/
structure Finding where
  trigger : Bool
  priority : Priority
  planning_area : String
  avg_temperature : Option ℚ
  green : Option ℚ
  density_type : Option Density
  data_source : Option DataSource
deriving DecidableEq

/-- Threshold constant `TEMP_HIGH = 29.5` (written `59/2` in lowest terms so
the kernel can evaluate comparisons against it). -/
def TEMP_HIGH : ℚ := mkRat 59 2

/-- Threshold constant `TEMP_CRITICAL = 30.5` (= `61/2`). -/
def TEMP_CRITICAL : ℚ := mkRat 61 2

/-- Threshold constant `GREEN_LOW = 0.2` (= `1/5`). -/
def GREEN_LOW : ℚ := mkRat 1 5

/-- Threshold constant `GREEN_CRITICAL = 0.1` (= `1/10`). -/
def GREEN_CRITICAL : ℚ := mkRat 1 10

/-- Embeds `green < c` on a possibly-NaN cell: false when the cell is absent, the
float comparison otherwise (`NaN < c` is `False` in Python). -/
def oLt (g : Option ℚ) (c : ℚ) : Prop :=
  match g with
  | some x => x < c
  | none => False

instance (g : Option ℚ) (c : ℚ) : Decidable (oLt g c) := by
  unfold oLt
  rcases g with _ | x <;> infer_instance

/-- Embeds `_evaluate_with_temperature`: the ordered if/elif decision list.  A branch
that fires appends one trigger message (not modelled) and sets the priority;
`trigger` is set exactly when some branch fired. -/
def evalWithTemperature (area : String) (temp : ℚ) (green : Option ℚ)
    (density : Option Density) : Finding :=
  if TEMP_CRITICAL ≤ temp ∧ oLt green GREEN_CRITICAL ∧ density = some Density.commercial then
    ⟨true, Priority.critical, area, some temp, green, density, some DataSource.temperature⟩
  else if TEMP_HIGH ≤ temp ∧ oLt green GREEN_LOW then
    ⟨true, Priority.high, area, some temp, green, density, some DataSource.temperature⟩
  else if TEMP_CRITICAL ≤ temp then
    ⟨true, Priority.high, area, some temp, green, density, some DataSource.temperature⟩
  else if TEMP_HIGH ≤ temp ∧ density = some Density.commercial ∧ oLt green GREEN_CRITICAL then
    ⟨true, Priority.medium, area, some temp, green, density, some DataSource.temperature⟩
  else if TEMP_HIGH ≤ temp ∧ density = some Density.residential ∧ oLt green GREEN_LOW then
    ⟨true, Priority.medium, area, some temp, green, density, some DataSource.temperature⟩
  else
    ⟨false, Priority.normal, area, some temp, green, density, some DataSource.temperature⟩

/-- Embeds `_infer_from_context`: the context-only fallback decision list. -/
def inferFromContext (area : String) (green : Option ℚ)
    (density : Option Density) : Finding :=
  if density = some Density.commercial ∧ oLt green GREEN_CRITICAL then
    ⟨true, Priority.medium, area, none, green, density, some DataSource.contextInference⟩
  else if oLt green GREEN_CRITICAL then
    ⟨true, Priority.medium, area, none, green, density, some DataSource.contextInference⟩
  else if density = some Density.residential ∧ oLt green GREEN_LOW then
    ⟨true, Priority.low, area, none, green, density, some DataSource.contextInference⟩
  else
    ⟨false, Priority.normal, area, none, green, density, some DataSource.contextInference⟩

/-- Embeds `evaluate_area(planning_area)`: the first row of the fused table matching
the name drives the evaluation (`area_data.iloc[0]`); a missing name returns
the not-found result instead of raising.  `pd.notna(temp)` selects the
measurement branch. -/
def evaluateArea (table : List FusedRecord) (name : String) : Finding :=
  match table.find? (fun r => r.planning_area = name) with
  | none => ⟨false, Priority.notFound, name, none, none, none, none⟩
  | some row =>
    match row.avg_temperature with
    | some t => evalWithTemperature name t row.green row.density_type
    | none => inferFromContext name row.green row.density_type

/-- Sort key of `results.sort(key=lambda x: priority_order.get(...))`
(Python `list.sort` is stable). -/
def rankLe (a b : Finding) : Prop := priorityRank a.priority ≤ priorityRank b.priority

instance : DecidableRel rankLe := fun a b => by
  unfold rankLe; infer_instance

instance : IsTotal Finding rankLe :=
  ⟨fun a b => le_total (priorityRank a.priority) (priorityRank b.priority)⟩

instance : IsTrans Finding rankLe :=
  ⟨fun _ _ _ hab hbc => le_trans hab hbc⟩

/-- Embeds `evaluate_all()`: evaluates every row's name against the table and sorts
by priority rank. -/
def evaluateAll (table : List FusedRecord) : List Finding :=
  (table.map (fun row => evaluateArea table row.planning_area)).insertionSort rankLe

/-- Embeds `get_triggered_areas()`: the findings with `trigger == True`, in
`evaluate_all` order (the projection to the output columns is not
modelled). -/
def getTriggeredAreas (table : List FusedRecord) : List Finding :=
  (evaluateAll table).filter (fun f => f.trigger)

/-! ## Spec-side decision lists (for the refinement statement of C1)

These two functions are written from the specification's wording of the rule
engine (spec §4.5), to be compared with the embedded code
(`evalWithTemperature` / `inferFromContext`). -/

/-- The spec's measurement branch: ordered first-match decision list over
`(temp, green_ratio, density)`, yielding `(priority, triggered)`. -/
def specMeasurementBranch (t g : ℚ) (d : Density) : Priority × Bool :=
  if (30.5 : ℚ) ≤ t ∧ g < (0.1 : ℚ) ∧ d = Density.commercial then (Priority.critical, true)
  else if (29.5 : ℚ) ≤ t ∧ g < (0.2 : ℚ) then (Priority.high, true)
  else if (30.5 : ℚ) ≤ t then (Priority.high, true)
  else if (29.5 : ℚ) ≤ t ∧ d = Density.commercial ∧ g < (0.1 : ℚ) then (Priority.medium, true)
  else if (29.5 : ℚ) ≤ t ∧ d = Density.residential ∧ g < (0.2 : ℚ) then (Priority.medium, true)
  else (Priority.normal, false)

/-- The spec's inference branch (no temperature): ordered decision list over
`(green_ratio, density)`. -/
def specInferenceBranch (g : ℚ) (d : Density) : Priority × Bool :=
  if d = Density.commercial ∧ g < (0.1 : ℚ) then (Priority.medium, true)
  else if g < (0.1 : ℚ) then (Priority.medium, true)
  else if d = Density.residential ∧ g < (0.2 : ℚ) then (Priority.low, true)
  else (Priority.normal, false)

/-! ## Concrete inputs used by witnesses -/

/-- A two-row fused table: one row with temperature data, one without. -/
def c1Table : List FusedRecord :=
  [⟨"WOODLANDS", some 31, some (mkRat 1 20), some Density.commercial⟩,
   ⟨"BEDOK", none, some (mkRat 3 20), some Density.residential⟩]

/-- A one-row fused table whose only row triggers (CRITICAL). -/
def c10Table : List FusedRecord :=
  [⟨"HOT", some 31, some (mkRat 1 20), some Density.commercial⟩]

/-- Index of the first resolved row of a region among the mapped rows: the
first-encounter order that claim C5 refers to. -/
def firstRowIdx (rows : List (String × ℚ × String)) (region : String) : ℕ :=
  (rows.map (fun r => r.1)).indexOf region

/-- The output ordering asserted by claim C5, specialised to one input:
sorted by `max_value` descending, ties keeping the first-encountered
region's relative order. -/
def claimedAggOrder (areas : List PlanningArea) (points : List WeatherPoint) : Prop :=
  (getAggregatedData areas points).Pairwise (fun a b =>
    b.max_temp ≤ a.max_temp ∧
    (a.max_temp = b.max_temp →
      firstRowIdx (mappedRows areas points) a.planning_area ≤
        firstRowIdx (mappedRows areas points) b.planning_area))

/-- The fusion behaviour asserted by claim C3, specialised to one input pair:
exactly one output record per region present in either input; a stats-only
region carries `green_ratio = 0.0` and `density_class = Unknown`; a
themes-only region carries an absent `avg_temperature`. -/
def claimedOuterJoin (stats : List (String × ℚ)) (ctx : List ContextRow) : Prop :=
  (∀ region ∈ stats.map Prod.fst ++ ctx.map (fun c => c.planning_area),
    ((getUnifiedDataset stats ctx).map (fun rec => rec.planning_area)).count region = 1)
  ∧ (∀ s ∈ stats, (∀ c ∈ ctx, c.planning_area ≠ s.1) →
      ∀ rec ∈ getUnifiedDataset stats ctx, rec.planning_area = s.1 →
        rec.green = some 0 ∧ rec.density_type = some Density.unknown)
  ∧ (∀ c ∈ ctx, (∀ s ∈ stats, s.1 ≠ c.planning_area) →
      ∀ rec ∈ getUnifiedDataset stats ctx, rec.planning_area = c.planning_area →
        rec.avg_temperature = none)

instance (stats : List (String × ℚ)) (ctx : List ContextRow) :
    Decidable (claimedOuterJoin stats ctx) := by
  unfold claimedOuterJoin
  infer_instance

/-- Two overlapping rectangles used for the C5 counterexample: the point with
`lng ≤ 10` lies in APPLE, otherwise in BANANA. -/
def cexAreas : List PlanningArea :=
  [⟨"APPLE", fun q => decide (q.1 ≤ 10)⟩, ⟨"BANANA", fun q => decide (10 < q.1)⟩]

/-- Two stations with equal readings: the first resolves to BANANA, the
second to APPLE (first-encounter order BANANA before APPLE). -/
def cexPoints : List WeatherPoint :=
  [⟨1, 15, 30, "s1"⟩, ⟨1, 5, 30, "s2"⟩]

/-! ## Helper lemmas -/

theorem spec_temp_high : (29.5 : ℚ) = TEMP_HIGH := by
  norm_num [TEMP_HIGH, Rat.mkRat_eq_div]

theorem spec_temp_critical : (30.5 : ℚ) = TEMP_CRITICAL := by
  norm_num [TEMP_CRITICAL, Rat.mkRat_eq_div]

theorem spec_green_low : (0.2 : ℚ) = GREEN_LOW := by
  norm_num [GREEN_LOW, Rat.mkRat_eq_div]

theorem spec_green_critical : (0.1 : ℚ) = GREEN_CRITICAL := by
  norm_num [GREEN_CRITICAL, Rat.mkRat_eq_div]

theorem le_foldr_max {l : List ℕ} {y : ℕ} (h : y ∈ l) : y ≤ l.foldr max 0 := by
  induction l with
  | nil => cases h
  | cons x xs ih =>
    rcases List.mem_cons.mp h with rfl | h2
    · exact le_max_left _ _
    · exact le_trans (ih h2) (le_max_right _ _)

/-- The trigger flag is set exactly when one of the prioritised branches
fires, on every path of `evaluate_area`. -/
theorem trigger_iff_priority_mem (table : List FusedRecord) (name : String) :
    (evaluateArea table name).trigger = true ↔
      (evaluateArea table name).priority ∈
        [Priority.critical, Priority.high, Priority.medium, Priority.low] := by
  unfold evaluateArea
  rcases hfind : table.find? (fun r => r.planning_area = name) with _ | row <;>
    simp only [hfind]
  · simp
  · rcases ht : row.avg_temperature with _ | t <;> simp only [ht]
    · unfold inferFromContext
      split_ifs <;> simp
    · unfold evalWithTemperature
      split_ifs <;> simp

/-! ## Claim theorems -/

/-- C1: for every fused record whose region is present in the fused table
(the first matching row drives the evaluation, per `iloc[0]`), evaluation is
exactly the spec's ordered first-match decision list: the measurement branch
when `avg_temperature` is present, the inference branch when absent, earlier
rules taking precedence. -/
theorem evaluateArea_decision_list (table : List FusedRecord) (name : String)
    (row : FusedRecord)
    (hfind : table.find? (fun r => r.planning_area = name) = some row)
    (g : ℚ) (d : Density) (hg : row.green = some g)
    (hd : row.density_type = some d) :
    (∀ t, row.avg_temperature = some t →
      ((evaluateArea table name).priority, (evaluateArea table name).trigger) =
        specMeasurementBranch t g d)
    ∧ (row.avg_temperature = none →
      ((evaluateArea table name).priority, (evaluateArea table name).trigger) =
        specInferenceBranch g d) := by
  constructor
  · intro t ht
    simp only [evaluateArea, hfind, ht]
    simp only [evalWithTemperature, specMeasurementBranch, hg, hd, oLt,
      spec_temp_high, spec_temp_critical, spec_green_low, spec_green_critical,
      Option.some.injEq]
    split_ifs <;> rfl
  · intro ht
    simp only [evaluateArea, hfind, ht]
    simp only [inferFromContext, specInferenceBranch, hg, hd, oLt,
      spec_green_low, spec_green_critical, Option.some.injEq]
    split_ifs <;> rfl

/-- C1 witness: a concrete two-row table, one row evaluated through the
measurement branch, the other through the inference branch. -/
theorem evaluateArea_decision_list_witness :
    ((evaluateArea c1Table ("WOODLANDS")).priority,
      (evaluateArea c1Table ("WOODLANDS")).trigger) =
        specMeasurementBranch 31 (mkRat 1 20) Density.commercial
    ∧ ((evaluateArea c1Table ("BEDOK")).priority,
      (evaluateArea c1Table ("BEDOK")).trigger) =
        specInferenceBranch (mkRat 3 20) Density.residential :=
  ⟨(evaluateArea_decision_list c1Table ("WOODLANDS")
      ⟨"WOODLANDS", some 31, some (mkRat 1 20), some Density.commercial⟩
      (by decide) (mkRat 1 20) Density.commercial rfl rfl).1 31 rfl,
   (evaluateArea_decision_list c1Table ("BEDOK")
      ⟨"BEDOK", none, some (mkRat 3 20), some Density.residential⟩
      (by decide) (mkRat 3 20) Density.residential rfl rfl).2 rfl⟩

/-- C6: `resolve` returns the name of the first polygon in load order whose
boundary contains the point (overlapping polygons: first-loaded wins), and
`none` rather than an error when no polygon contains it.  `getPlanningArea`
is a pure function, so repeated calls agree by definition. -/
theorem getPlanningArea_first_match (areas : List PlanningArea) (lat lon : ℚ) :
    ((∀ a ∈ areas, a.contains (lon, lat) = false) →
      getPlanningArea areas lat lon = none)
    ∧ ∀ l₁ a l₂, areas = l₁ ++ a :: l₂ →
        (∀ b ∈ l₁, b.contains (lon, lat) = false) →
        a.contains (lon, lat) = true →
        getPlanningArea areas lat lon = some a.name := by
  constructor
  · intro h
    unfold getPlanningArea
    have hfind : areas.find? (fun ar => ar.contains (lon, lat)) = none := by
      rw [List.find?_eq_none]
      intro x hx
      simp [h x hx]
    rw [hfind]
    rfl
  · rintro l₁ a l₂ rfl hl₁ ha
    unfold getPlanningArea
    have h1 : l₁.find? (fun ar => ar.contains (lon, lat)) = none := by
      rw [List.find?_eq_none]
      intro x hx
      simp [hl₁ x hx]
    simp only [List.find?_append, h1, Option.none_or]
    rw [@List.find?_cons_of_pos _ (fun ar => ar.contains (lon, lat)) a l₂ ha]
    rfl

/-- C6 witness: two overlapping polygons both containing the point; the
first-loaded one wins, and a faraway point resolves to `none`. -/
theorem getPlanningArea_first_match_witness :
    getPlanningArea
      [⟨"ALPHA", fun q => decide (q.1 ≤ 10)⟩, ⟨"BETA", fun q => decide (q.1 ≤ 20)⟩]
      1 5 = some ("ALPHA")
    ∧ getPlanningArea
      [⟨"ALPHA", fun q => decide (q.1 ≤ 10)⟩, ⟨"BETA", fun q => decide (q.1 ≤ 20)⟩]
      1 50 = none :=
  ⟨(getPlanningArea_first_match
      [⟨"ALPHA", fun q => decide (q.1 ≤ 10)⟩, ⟨"BETA", fun q => decide (q.1 ≤ 20)⟩]
      1 5).2 [] ⟨"ALPHA", fun q => decide (q.1 ≤ 10)⟩
      [⟨"BETA", fun q => decide (q.1 ≤ 20)⟩] rfl (by simp) (by decide),
   (getPlanningArea_first_match
      [⟨"ALPHA", fun q => decide (q.1 ≤ 10)⟩, ⟨"BETA", fun q => decide (q.1 ≤ 20)⟩]
      1 50).1 (by decide)⟩

/-- C7: density classification is the stated pure function of the count pair:
total zero gives Unknown, ratio above 0.6 Commercial, below 0.4 Residential,
anything else (including exactly 0.4 and 0.6) Mixed; with the claim's four
sample points. -/
theorem determineDensity_spec (c r : ℕ) :
    (c + r = 0 → determineDensity c r = Density.unknown)
    ∧ (c + r ≠ 0 → (0.6 : ℚ) < (c : ℚ) / ((c : ℚ) + (r : ℚ)) →
        determineDensity c r = Density.commercial)
    ∧ (c + r ≠ 0 → (c : ℚ) / ((c : ℚ) + (r : ℚ)) < (0.4 : ℚ) →
        determineDensity c r = Density.residential)
    ∧ (c + r ≠ 0 → ¬ ((0.6 : ℚ) < (c : ℚ) / ((c : ℚ) + (r : ℚ))) →
        ¬ ((c : ℚ) / ((c : ℚ) + (r : ℚ)) < (0.4 : ℚ)) →
        determineDensity c r = Density.mixed)
    ∧ determineDensity 0 0 = Density.unknown
    ∧ determineDensity 7 3 = Density.commercial
    ∧ determineDensity 3 7 = Density.residential
    ∧ determineDensity 5 5 = Density.mixed
    ∧ determineDensity 3 2 = Density.mixed
    ∧ determineDensity 2 3 = Density.mixed := by
  refine ⟨?_, ?_, ?_, ?_, ?_, ?_, ?_, ?_, ?_, ?_⟩
  · intro h
    rw [determineDensity, if_pos h]
  · intro h h2
    rw [determineDensity, if_neg h, if_pos h2]
  · intro h h2
    have h3 : ¬ ((0.6 : ℚ) < (c : ℚ) / ((c : ℚ) + (r : ℚ))) := by
      intro hcon
      have : (0.4 : ℚ) < (0.6 : ℚ) := by norm_num
      linarith
    rw [determineDensity, if_neg h, if_neg h3, if_pos h2]
  · intro h h2 h3
    rw [determineDensity, if_neg h, if_neg h2, if_neg h3]
  · rfl
  · norm_num [determineDensity]
  · norm_num [determineDensity]
  · norm_num [determineDensity]
  · norm_num [determineDensity]
  · norm_num [determineDensity]

/-- C7 witness: the Commercial case applied at the claim's `(7, 3)` sample,
and the Unknown case at `(0, 0)`. -/
theorem determineDensity_spec_witness :
    determineDensity 7 3 = Density.commercial
    ∧ determineDensity 0 0 = Density.unknown :=
  ⟨(determineDensity_spec 7 3).2.1 (by decide) (by norm_num),
   (determineDensity_spec 0 0).1 rfl⟩

/-- C9: load is an idempotent cache-fill: a second `load` while a non-empty
region set is cached is a no-op, and the cache can only change when it was
empty (an explicit clear is required for a refresh). -/
theorem loadPlanningAreas_idempotent (cache f1 f2 : List PlanningArea) :
    (loadPlanningAreas cache f1 ≠ [] →
      loadPlanningAreas (loadPlanningAreas cache f1) f2 = loadPlanningAreas cache f1)
    ∧ (loadPlanningAreas cache f1 ≠ cache → cache = []) := by
  constructor
  · intro h
    unfold loadPlanningAreas
    rw [if_neg]
    simpa using h
  · intro h
    by_cases hc : cache.isEmpty
    · simpa using hc
    · exact absurd (by unfold loadPlanningAreas; rw [if_neg hc]) h

/-- C9 witness: with one polygon cached, a second load with fresh data leaves
the cache unchanged. -/
theorem loadPlanningAreas_idempotent_witness :
    loadPlanningAreas
      (loadPlanningAreas [⟨"ALPHA", fun _ => true⟩] [⟨"BETA", fun _ => true⟩])
      [⟨"GAMMA", fun _ => true⟩]
    = loadPlanningAreas [⟨"ALPHA", fun _ => true⟩] [⟨"BETA", fun _ => true⟩] :=
  (loadPlanningAreas_idempotent [⟨"ALPHA", fun _ => true⟩]
    [⟨"BETA", fun _ => true⟩] [⟨"GAMMA", fun _ => true⟩]).1
    (by simp [loadPlanningAreas])

/-- C10: on every evaluation path, `triggered` holds exactly when the
priority is CRITICAL, HIGH, MEDIUM or LOW; hence the triggered-only view
contains no NORMAL and no not-found record. -/
theorem finding_triggered_iff (table : List FusedRecord) (name : String) :
    ((evaluateArea table name).trigger = true ↔
      (evaluateArea table name).priority ∈
        [Priority.critical, Priority.high, Priority.medium, Priority.low])
    ∧ ∀ f ∈ getTriggeredAreas table,
        f.priority ≠ Priority.normal ∧ f.priority ≠ Priority.notFound := by
  refine ⟨trigger_iff_priority_mem table name, ?_⟩
  intro f hf
  unfold getTriggeredAreas at hf
  obtain ⟨hmem, htrig⟩ := List.mem_filter.mp hf
  unfold evaluateAll at hmem
  rw [List.mem_insertionSort] at hmem
  obtain ⟨row, _, hrow⟩ := List.mem_map.mp hmem
  have h1 := trigger_iff_priority_mem table row.planning_area
  rw [hrow] at h1
  have hp := h1.mp (by simpa using htrig)
  simp only [List.mem_cons, List.mem_singleton] at hp
  constructor <;> intro hcon <;> rw [hcon] at hp <;> simp at hp

/-- C10 witness: a table whose single row triggers CRITICAL; its finding is
in the triggered view and is neither NORMAL nor not-found. -/
theorem finding_triggered_iff_witness :
    (evaluateArea c10Table ("HOT")).priority ≠ Priority.normal ∧
    (evaluateArea c10Table ("HOT")).priority ≠ Priority.notFound :=
  (finding_triggered_iff c10Table ("HOT")).2
    (evaluateArea c10Table ("HOT")) (by decide)

/-- C8: every region's `green_ratio` is its green count divided by the global
maximum green count, rounded to two decimals; when the global maximum is zero
every ratio is the scalar `0` (the division branch is guarded, so division by
zero never happens); and the ratio always lies in `[0, 1]`. -/
theorem greenRatioRows_spec (areas : List String) (gc : String → ℕ)
    (a : String) (q : ℚ) (h : (a, q) ∈ greenRatioRows areas gc) :
    ((areas.map gc).foldr max 0 = 0 → q = 0)
    ∧ (0 < (areas.map gc).foldr max 0 →
        q = round2 ((gc a : ℚ) / (((areas.map gc).foldr max 0 : ℕ) : ℚ)))
    ∧ 0 ≤ q ∧ q ≤ 1 := by
  by_cases hM : 0 < (areas.map gc).foldr max 0
  · unfold greenRatioRows at h
    rw [if_pos hM] at h
    obtain ⟨x, hx, heq⟩ := List.mem_map.mp h
    rw [Prod.mk.injEq] at heq
    obtain ⟨rfl, rfl⟩ := heq
    have hle : gc x ≤ (areas.map gc).foldr max 0 :=
      le_foldr_max (List.mem_map_of_mem gc hx)
    have hM0 : (0 : ℚ) < (((areas.map gc).foldr max 0 : ℕ) : ℚ) := by
      exact_mod_cast hM
    have ht0 : 0 ≤ (gc x : ℚ) / (((areas.map gc).foldr max 0 : ℕ) : ℚ) :=
      div_nonneg (by positivity) hM0.le
    have ht1 : (gc x : ℚ) / (((areas.map gc).foldr max 0 : ℕ) : ℚ) ≤ 1 :=
      (div_le_one hM0).mpr (by exact_mod_cast hle)
    refine ⟨fun h0 => absurd h0 (by omega), fun _ => rfl, ?_, ?_⟩
    · unfold round2
      apply div_nonneg _ (by norm_num)
      exact_mod_cast rnd_nonneg (by positivity)
    · unfold round2
      rw [div_le_one (by norm_num)]
      have h100 : (gc x : ℚ) / (((areas.map gc).foldr max 0 : ℕ) : ℚ) * 100 ≤
          ((100 : ℤ) : ℚ) := by
        push_cast
        nlinarith
      exact_mod_cast rnd_le_of_le h100
  · have hM0 : (areas.map gc).foldr max 0 = 0 := by omega
    unfold greenRatioRows at h
    rw [if_neg hM] at h
    obtain ⟨x, hx, heq⟩ := List.mem_map.mp h
    rw [Prod.mk.injEq] at heq
    obtain ⟨rfl, rfl⟩ := heq
    exact ⟨fun _ => rfl, fun hcon => absurd hM0 (by omega), le_refl 0, by norm_num⟩

/-- C8 witness: a table whose green counts are all zero takes the guarded
branch and yields ratio 0. -/
theorem greenRatioRows_spec_witness :
    ((("P" : String), (0 : ℚ)) ∈ greenRatioRows (["P"]) (fun _ => 0))
    ∧ (0 : ℚ) ≤ 0 ∧ (0 : ℚ) ≤ 1 :=
  ⟨by decide, (greenRatioRows_spec (["P"]) (fun _ => 0) ("P") 0 (by decide)).2.2⟩

/-- The region-name column of the outer merge: the stats keys followed by the
context keys that match no stats key. -/
theorem mergeOuter_map_names (stats : List (String × ℚ)) (ctx : List ContextRow) :
    (mergeOuter stats ctx).map (fun rec => rec.planning_area) =
      stats.map Prod.fst ++
      ((ctx.map (fun c => c.planning_area)).filter
        (fun n => !(stats.any (fun s => s.1 == n)))) := by
  unfold mergeOuter
  rw [List.map_append, List.map_map, List.map_map]
  congr 1
  · apply List.map_congr_left
    intro s _
    simp only [Function.comp]
    rcases hf : ctx.find? (fun c => c.planning_area = s.1) with _ | c <;> simp [hf]
  · rw [List.filter_map]
    rfl

/-- Each region present in either input appears exactly once in the name
column of the (pre-sort) join, provided both inputs have unique keys. -/
theorem joinOrder_count (stats : List (String × ℚ)) (ctx : List ContextRow)
    (hs : (stats.map Prod.fst).Nodup)
    (hc : (ctx.map (fun c => c.planning_area)).Nodup)
    (region : String)
    (hreg : region ∈ stats.map Prod.fst ++ ctx.map (fun c => c.planning_area)) :
    ((joinOrder stats ctx).map (fun rec => rec.planning_area)).count region = 1 := by
  by_cases hst : stats.isEmpty
  · have hse : stats = [] := List.isEmpty_iff.mp hst
    subst hse
    have hj : joinOrder [] ctx =
        ctx.map (fun c =>
          (⟨c.planning_area, none, some c.green, some c.density_type⟩ : FusedRecord)) := rfl
    rw [hj, List.map_map]
    simp only [List.map_nil, List.nil_append] at hreg
    exact List.count_eq_one_of_mem hc hreg
  · unfold joinOrder
    rw [if_neg hst, mergeOuter_map_names, List.count_append]
    by_cases hin : region ∈ stats.map Prod.fst
    · have h1 : (stats.map Prod.fst).count region = 1 := List.count_eq_one_of_mem hs hin
      have h2 : ((ctx.map (fun c => c.planning_area)).filter
          (fun n => !(stats.any (fun s => s.1 == n)))).count region = 0 := by
        rw [List.count_eq_zero]
        intro hmem
        obtain ⟨hmem2, hq⟩ := List.mem_filter.mp hmem
        simp only [Bool.not_eq_true', List.any_eq_false, beq_iff_eq] at hq
        obtain ⟨s, hsmem, hseq⟩ := List.mem_map.mp hin
        exact hq s hsmem hseq
      rw [h1, h2]
    · have hin2 : region ∈ ctx.map (fun c => c.planning_area) := by
        rcases List.mem_append.mp hreg with h | h
        · exact absurd h hin
        · exact h
      have h1 : (stats.map Prod.fst).count region = 0 := List.count_eq_zero.mpr hin
      have hq : (fun n => !(stats.any (fun s => s.1 == n))) region = true := by
        simp only [Bool.not_eq_true', List.any_eq_false, beq_iff_eq]
        intro s hsmem hseq
        exact hin (List.mem_map.mpr ⟨s, hsmem, hseq⟩)
      have h2 := @List.count_filter String _ _
        (fun n => !(stats.any (fun s => s.1 == n))) region
        (List.map (fun c => c.planning_area) ctx) hq
      rw [h2, h1, List.count_eq_one_of_mem hc hin2]

/-- Every record of the sorted unified dataset comes from the join. -/
theorem mem_joinOrder_of_mem_unified {stats : List (String × ℚ)}
    {ctx : List ContextRow} {rec : FusedRecord}
    (h : rec ∈ getUnifiedDataset stats ctx) : rec ∈ joinOrder stats ctx := by
  unfold getUnifiedDataset at h
  by_cases hctx : ctx.isEmpty
  · rw [if_pos hctx] at h
    simp at h
  · rw [if_neg hctx] at h
    exact (List.mem_insertionSort _).mp h

/-- C3 (amended): when the context table is empty the fused output is empty
(stats-only regions are dropped); otherwise, for inputs with unique region
names, the output has exactly one record per region present in either input,
a stats-only region carries absent (NaN) `green_ratio` and `density_type`
rather than `(0.0, Unknown)`, and a themes-only region carries an absent
`avg_temperature` (never zero). -/
theorem getUnifiedDataset_outer_join (stats : List (String × ℚ))
    (ctx : List ContextRow)
    (hs : (stats.map Prod.fst).Nodup)
    (hc : (ctx.map (fun c => c.planning_area)).Nodup) :
    (ctx = [] → getUnifiedDataset stats ctx = [])
    ∧ (ctx ≠ [] →
        ∀ region ∈ stats.map Prod.fst ++ ctx.map (fun c => c.planning_area),
          ((getUnifiedDataset stats ctx).map (fun rec => rec.planning_area)).count
            region = 1)
    ∧ (∀ s ∈ stats, (∀ c ∈ ctx, c.planning_area ≠ s.1) →
        ∀ rec ∈ getUnifiedDataset stats ctx, rec.planning_area = s.1 →
          rec.green = none ∧ rec.density_type = none)
    ∧ (∀ c ∈ ctx, (∀ s ∈ stats, s.1 ≠ c.planning_area) →
        ∀ rec ∈ getUnifiedDataset stats ctx, rec.planning_area = c.planning_area →
          rec.avg_temperature = none) := by
  refine ⟨?_, ?_, ?_, ?_⟩
  · intro h
    subst h
    rfl
  · intro hne region hreg
    have hctx : ¬ ctx.isEmpty = true := by
      simpa [List.isEmpty_iff] using hne
    unfold getUnifiedDataset
    rw [if_neg hctx]
    have hperm : List.Perm
        (((joinOrder stats ctx).insertionSort fusedLe).map (fun rec => rec.planning_area))
        ((joinOrder stats ctx).map (fun rec => rec.planning_area)) :=
      (List.perm_insertionSort fusedLe (joinOrder stats ctx)).map
        (fun rec => rec.planning_area)
    rw [hperm.count_eq region]
    exact joinOrder_count stats ctx hs hc region hreg
  · intro s hsmem hnoctx rec hrec hname
    have hrec2 := mem_joinOrder_of_mem_unified hrec
    unfold joinOrder at hrec2
    by_cases hst : stats.isEmpty
    · rw [if_pos hst] at hrec2
      simp only [List.mem_map] at hrec2
      obtain ⟨c, hcmem, heq⟩ := hrec2
      rw [← heq] at hname
      exact absurd hname (hnoctx c hcmem)
    · rw [if_neg hst] at hrec2
      unfold mergeOuter at hrec2
      rcases List.mem_append.mp hrec2 with hL | hR
      · simp only [List.mem_map] at hL
        obtain ⟨t, htmem, heq⟩ := hL
        rcases hf : ctx.find? (fun c => c.planning_area = t.1) with _ | c
        · rw [hf] at heq
          rw [← heq]
          exact ⟨rfl, rfl⟩
        · exfalso
          rw [hf] at heq
          have hcm : c ∈ ctx := List.mem_of_find?_eq_some hf
          have hceq : c.planning_area = t.1 := by
            simpa using List.find?_some hf
          rw [← heq] at hname
          exact hnoctx c hcm (hceq.trans hname)
      · exfalso
        simp only [List.mem_map] at hR
        obtain ⟨c, hcmem, heq⟩ := hR
        have hcm : c ∈ ctx := (List.mem_filter.mp hcmem).1
        rw [← heq] at hname
        exact hnoctx c hcm hname
  · intro c hcmem hnostats rec hrec hname
    have hrec2 := mem_joinOrder_of_mem_unified hrec
    unfold joinOrder at hrec2
    by_cases hst : stats.isEmpty
    · rw [if_pos hst] at hrec2
      simp only [List.mem_map] at hrec2
      obtain ⟨d, _, heq⟩ := hrec2
      rw [← heq]
    · rw [if_neg hst] at hrec2
      unfold mergeOuter at hrec2
      rcases List.mem_append.mp hrec2 with hL | hR
      · exfalso
        simp only [List.mem_map] at hL
        obtain ⟨t, htmem, heq⟩ := hL
        have hname2 : rec.planning_area = t.1 := by
          rcases hf : ctx.find? (fun cc => cc.planning_area = t.1) with _ | cc <;>
            (rw [hf] at heq; rw [← heq])
        rw [hname2] at hname
        exact hnostats t htmem hname
      · simp only [List.mem_map] at hR
        obtain ⟨d, _, heq⟩ := hR
        rw [← heq]

/-- C3 counterexample: with `stats = [("ALPHA", 30)]` and a single context
row for BETA, the fused record for the stats-only region ALPHA carries
`green_ratio = NaN` and `density_type = NaN`, not `(0.0, Unknown)`, so the
claimed outer-join property fails at this input. -/
theorem claimedOuterJoin_counterexample :
    ¬ claimedOuterJoin [(("ALPHA" : String), (30 : ℚ))]
      [⟨"BETA", mkRat 1 2, Density.residential⟩] := by
  decide

/-- C3 witness: both regions of the counterexample input appear exactly once
in the fused output. -/
theorem getUnifiedDataset_outer_join_witness :
    ((getUnifiedDataset [(("ALPHA" : String), (30 : ℚ))]
        [⟨"BETA", mkRat 1 2, Density.residential⟩]).map
      (fun rec => rec.planning_area)).count ("ALPHA") = 1 :=
  (getUnifiedDataset_outer_join [(("ALPHA" : String), (30 : ℚ))]
      [⟨"BETA", mkRat 1 2, Density.residential⟩] (by decide) (by decide)).2.1
    (by decide) ("ALPHA") (by decide)

/-- The group keys are exactly the distinct resolved regions. -/
theorem mem_groupKeys {rows : List (String × ℚ × String)} {k : String} :
    k ∈ groupKeys rows ↔ k ∈ rows.map (fun r => r.1) := by
  unfold groupKeys
  rw [List.mem_insertionSort, List.mem_dedup]

/-- The group keys are distinct. -/
theorem groupKeys_nodup (rows : List (String × ℚ × String)) :
    (groupKeys rows).Nodup :=
  ((List.perm_insertionSort strLe _).nodup_iff).mpr (List.nodup_dedup _)

/-- The group keys are in ascending name order. -/
theorem groupKeys_sorted (rows : List (String × ℚ × String)) :
    (groupKeys rows).Pairwise strLe :=
  List.sorted_insertionSort strLe _

/-- The name column of the grouped table is the key list itself. -/
theorem groupedStats_names (areas : List PlanningArea) (points : List WeatherPoint) :
    (groupedStats areas points).map (fun s => s.planning_area) =
      groupKeys (mappedRows areas points) := by
  unfold groupedStats
  rw [List.map_map]
  have hcomp : ((fun s => RegionStat.planning_area s) ∘
      statFor (mappedRows areas points)) = id := rfl
  rw [hcomp, List.map_id]

/-- C5 (amended): the aggregation has one record per region with at least one
resolved point; each record's `avg` is the mean rounded to one decimal,
`max` the unrounded maximum, `count` the number of contributing rows and
`members` the labels in input order; empty input or zero resolved points
yield the empty sequence; and the output is sorted by `max_value`
descending.  The relative order of records with equal `max_value` is not
part of the claim: the claimed first-encounter tie-break is refuted by the
counterexample, and the program's `sort_values` (default `kind='quicksort'`)
fixes no tie order.  Every conjunct here holds for any correct sort:
sortedness is `Pairwise maxGeStat`, the rest is invariant under permutation
of the output. -/
theorem getAggregatedData_spec (areas : List PlanningArea) (points : List WeatherPoint) :
    (mappedRows areas points = [] → getAggregatedData areas points = [])
    ∧ (∀ region, (∃ s ∈ getAggregatedData areas points, s.planning_area = region) ↔
        ∃ r ∈ mappedRows areas points, r.1 = region)
    ∧ ((getAggregatedData areas points).map (fun s => s.planning_area)).Nodup
    ∧ (∀ s ∈ getAggregatedData areas points,
        s.avg_temp = round1 ((regionVals (mappedRows areas points) s.planning_area).sum /
          ((regionVals (mappedRows areas points) s.planning_area).length : ℚ))
        ∧ s.max_temp ∈ regionVals (mappedRows areas points) s.planning_area
        ∧ (∀ v ∈ regionVals (mappedRows areas points) s.planning_area, v ≤ s.max_temp)
        ∧ s.station_count = (regionVals (mappedRows areas points) s.planning_area).length
        ∧ s.stations = regionLabels (mappedRows areas points) s.planning_area)
    ∧ (getAggregatedData areas points).Pairwise maxGeStat := by
  refine ⟨?_, ?_, ?_, ?_, ?_⟩
  · intro h
    unfold getAggregatedData groupedStats groupKeys
    rw [h]
    rfl
  · intro region
    constructor
    · rintro ⟨s, hmem, rfl⟩
      have hmem2 : s ∈ groupedStats areas points :=
        (List.mem_insertionSort _).mp hmem
      unfold groupedStats at hmem2
      obtain ⟨k, hk, heq⟩ := List.mem_map.mp hmem2
      obtain ⟨r, hr, hr1⟩ := List.mem_map.mp (mem_groupKeys.mp hk)
      exact ⟨r, hr, by rw [hr1, ← heq]; rfl⟩
    · rintro ⟨r, hr, rfl⟩
      refine ⟨statFor (mappedRows areas points) r.1, ?_, rfl⟩
      apply (List.mem_insertionSort _).mpr
      unfold groupedStats
      apply List.mem_map_of_mem
      exact mem_groupKeys.mpr (List.mem_map_of_mem _ hr)
  · have hperm : List.Perm
        ((getAggregatedData areas points).map (fun s => s.planning_area))
        ((groupedStats areas points).map (fun s => s.planning_area)) :=
      (List.perm_insertionSort maxGeStat (groupedStats areas points)).map
        (fun s => s.planning_area)
    rw [hperm.nodup_iff, groupedStats_names]
    exact groupKeys_nodup _
  · intro s hs
    have hmem2 : s ∈ groupedStats areas points :=
      (List.mem_insertionSort _).mp hs
    unfold groupedStats at hmem2
    obtain ⟨k, hk, heq⟩ := List.mem_map.mp hmem2
    subst heq
    have hne : regionVals (mappedRows areas points) k ≠ [] := by
      obtain ⟨r, hr, hr1⟩ := List.mem_map.mp (mem_groupKeys.mp hk)
      have hrf : r ∈ (mappedRows areas points).filter (fun t => t.1 = k) :=
        List.mem_filter.mpr ⟨hr, by simp [hr1]⟩
      exact List.ne_nil_of_mem (List.mem_map_of_mem (fun t => t.2.1) hrf)
    rcases hmax : (regionVals (mappedRows areas points) k).maximum with _ | m
    · exact absurd (List.maximum_eq_bot.mp hmax) hne
    · have hm : (statFor (mappedRows areas points) k).max_temp = m := by
        show ((regionVals (mappedRows areas points) k).maximum).unbot' 0 = m
        rw [hmax]
        rfl
      refine ⟨rfl, ?_, ?_, rfl, rfl⟩
      · rw [hm]
        exact List.maximum_mem hmax
      · intro v hv
        rw [hm]
        exact List.le_maximum_of_mem hv hmax
  · exact List.sorted_insertionSort maxGeStat _

/-- C5 counterexample: two tied stations whose first-encounter order is
BANANA before APPLE; the aggregated output orders the tie APPLE before
BANANA (the `groupby` key order), so the claimed tie-breaking by
first-encounter order fails at this input. -/
theorem claimedAggOrder_counterexample : ¬ claimedAggOrder cexAreas cexPoints := by
  intro h
  have hmap : (getAggregatedData cexAreas cexPoints).map
      (fun s => (s.planning_area, s.max_temp)) =
      [(("APPLE" : String), (30 : ℚ)), ("BANANA", 30)] := by
    decide
  have h2 : List.Pairwise
      (fun x y : String × ℚ => y.2 ≤ x.2 ∧
        (x.2 = y.2 → firstRowIdx (mappedRows cexAreas cexPoints) x.1 ≤
          firstRowIdx (mappedRows cexAreas cexPoints) y.1))
      ((getAggregatedData cexAreas cexPoints).map
        (fun s => (s.planning_area, s.max_temp))) :=
    List.Pairwise.map _ (fun a b hab => hab) h
  rw [hmap] at h2
  have h3 := (List.pairwise_cons.mp h2).1 (("BANANA"), (30 : ℚ)) (by simp)
  exact absurd (h3.2 rfl) (by decide)

/-- C5 witness: no points resolve, so the aggregation is empty rather than an
error. -/
theorem getAggregatedData_spec_witness :
    getAggregatedData [] [] = [] :=
  (getAggregatedData_spec [] []).1 rfl

end GreenGuardian
